import Mathlib

/-!
# Verification of the Steam games ETL pipeline (transform / dashboard / pipeline logic)

Shallow embedding of the repository's transform chain
(`src/transform.py`, class `SteamDataTransformer`), the dashboard filter
(`src/dashboard.py`, `apply_filters`) and the pipeline control flow
(`run_pipeline.py`).

Modelling conventions:
* a pandas `DataFrame` is a `List Row` over a fixed schema (the required
  input columns of the spec, section 6);
* a missing value (`NaN`) is `none`; pandas comparisons against `NaN`
  are `false`, which the `oge`/`ogt`/`oeqQ` helpers reproduce;
* floating point numbers are modelled as exact rationals;
* the library functions `pd.to_datetime` and `np.log1p` are parameters
  (`pd : String → Option PDate`, `l : ℚ → ℚ`): they are deterministic
  external functions whose pointwise values the claims do not depend on;
* Python string operations (`strip`, `split`, `in`, `int(...)`) are
  re-implemented structurally over `List Char` so that the kernel can
  evaluate them.
-/

/-- Python's `str.strip()` on a character list: drop whitespace from both
ends. -/
def pyStripL (l : List Char) : List Char :=
  ((l.dropWhile Char.isWhitespace).reverse.dropWhile Char.isWhitespace).reverse

/-- Python's `s.split(sep)` for a one-character separator: always returns a
non-empty list of (possibly empty) parts. -/
def pySplitOn (sep : Char) : List Char → List (List Char)
  | [] => [[]]
  | c :: cs =>
    match pySplitOn sep cs with
    | [] => [[]]
    | h :: t => if c = sep then [] :: h :: t else (c :: h) :: t

/-- Boolean "is prefix of" on character lists. -/
def isPrefixOfB : List Char → List Char → Bool
  | [], _ => true
  | _ :: _, [] => false
  | a :: as, b :: bs => a = b && isPrefixOfB as bs

/-- Python's `pat in s` substring test. -/
def containsSub (pat : List Char) : List Char → Bool
  | [] => isPrefixOfB pat []
  | c :: t => isPrefixOfB pat (c :: t) || containsSub pat t

/-- Numeric value of a digit list (most significant first). -/
def digitsVal (l : List Char) : Nat :=
  l.foldl (fun a c => a * 10 + (c.toNat - 48)) 0

/-- Parse a non-empty all-digit character list, else `none`. -/
def parsePyNat (l : List Char) : Option Nat :=
  if l.isEmpty then none
  else if l.all Char.isDigit then some (digitsVal l) else none

/-- Python's `int(s)`: strip whitespace, optional sign, digits; `none`
models a raised `ValueError`. -/
def parsePyInt (l : List Char) : Option Int :=
  match pyStripL l with
  | '+' :: ds => (parsePyNat ds).map Int.ofNat
  | '-' :: ds => (parsePyNat ds).map (fun n => -(n : Int))
  | ds => (parsePyNat ds).map Int.ofNat

/-- Python's `s.replace(",", "")`. -/
def remCommas (l : List Char) : List Char :=
  l.filter (fun c => c ≠ ',')

/-- A parsed calendar date, as far as the pipeline uses it. -/
structure PDate where
  year : Int
  month : Nat
deriving DecidableEq

/-- `month → quarter` as pandas' `dt.quarter` computes it. -/
def pQuarter (m : Nat) : Nat := (m + 2) / 3

/-- The value in the `release_date` column: a raw string, a parsed
datetime, or missing (`NaT`). -/
inductive DateVal where
  | dstr : String → DateVal
  | ddate : PDate → DateVal
  | dmiss : DateVal
deriving DecidableEq

/-- One row of the games table: the required raw columns (spec section 6)
plus every column the transform chain adds.  A column the stage has not
produced yet is `none`. -/
structure Row where
  appid : Int
  name : Option String
  release_date : DateVal
  developer : Option String
  publisher : Option String
  platforms : Option String
  categories : Option String
  genres : Option String
  achievements : Option ℚ
  positive_ratings : Option ℚ
  negative_ratings : Option ℚ
  average_playtime : Option ℚ
  median_playtime : Option ℚ
  owners : Option String
  price : Option ℚ
  release_year : Option Int := none
  release_month : Option Nat := none
  release_quarter : Option Nat := none
  total_ratings : Option ℚ := none
  positive_percentage : Option ℚ := none
  estimated_owners : Option Int := none
  estimated_revenue : Option ℚ := none
  price_category : Option String := none
  popularity_tier : Option String := none
  quality_score : Option ℚ := none
  years_since_release : Option Int := none
  primary_genre : Option String := none
  platform_count : Option Nat := none
  has_windows : Option Bool := none
  has_mac : Option Bool := none
  has_linux : Option Bool := none
  is_multiplatform : Option Bool := none
  is_multiplayer : Option Bool := none
  is_singleplayer : Option Bool := none
  has_achievements : Option Bool := none
  is_free : Option Bool := none
deriving DecidableEq

/-- pandas `col >= c` on a possibly-missing value: `NaN` compares false. -/
def oge (x : Option ℚ) (c : ℚ) : Bool :=
  match x with
  | some v => decide (c ≤ v)
  | none => false

/-- pandas `col > c` on a possibly-missing value. -/
def ogt (x : Option ℚ) (c : ℚ) : Bool :=
  match x with
  | some v => decide (c < v)
  | none => false

/-- pandas `col == c` on a possibly-missing value. -/
def oeqQ (x : Option ℚ) (c : ℚ) : Bool :=
  match x with
  | some v => decide (v = c)
  | none => false

/-! ## Stage 1: `clean_basic_data` -/

/-- `fillna` for one numeric cell. -/
def fillQ (d : ℚ) (o : Option ℚ) : Option ℚ := some (o.getD d)

/-- `fillna` for one string cell. -/
def fillS (d : String) (o : Option String) : Option String := some (o.getD d)

/-- `_handle_missing_values`: the per-column fill table, restricted to the
columns of the input schema. -/
def fillRow (r : Row) : Row :=
  { r with
    achievements := fillQ 0 r.achievements
    positive_ratings := fillQ 0 r.positive_ratings
    negative_ratings := fillQ 0 r.negative_ratings
    average_playtime := fillQ 0 r.average_playtime
    median_playtime := fillQ 0 r.median_playtime
    price := fillQ 0 r.price
    developer := fillS "Unknown" r.developer
    publisher := fillS "Unknown" r.publisher
    platforms := fillS "windows" r.platforms
    categories := fillS "Unknown" r.categories
    genres := fillS "Unknown" r.genres }

/-- `astype(str).str.strip()` followed by `replace("nan", np.nan)` on one
cell. -/
def stripCell (o : Option String) : Option String :=
  match o with
  | none => none
  | some s =>
    let t := String.mk (pyStripL s.data)
    if t = "nan" then none else some t

/-- The string-column cleanup loop of `clean_basic_data` (of the columns in
the schema: `name`, `developer`, `publisher`, `categories`, `genres`;
`platforms` is not in the stripped list). -/
def stripRow (r : Row) : Row :=
  { r with
    name := stripCell r.name
    developer := stripCell r.developer
    publisher := stripCell r.publisher
    categories := stripCell r.categories
    genres := stripCell r.genres }

/-- Per-row effect of `clean_basic_data` after de-duplication. -/
def cleanRow (r : Row) : Row := stripRow (fillRow r)

/-- `drop_duplicates(subset=["appid"], keep="first")`. -/
def dedupAppid (seen : List Int) : List Row → List Row
  | [] => []
  | r :: rs =>
    if r.appid ∈ seen then dedupAppid seen rs
    else r :: dedupAppid (r.appid :: seen) rs

/-- `SteamDataTransformer.clean_basic_data`. -/
def clean_basic_data (df : List Row) : List Row :=
  (dedupAppid [] df).map cleanRow

/-! ## Stage 2: `transform_dates` -/

/-- `pd.to_datetime(col, errors="coerce")` on one cell, parameterised by
the library's string-to-date parser. -/
def toDT (pd : String → Option PDate) : DateVal → DateVal
  | DateVal.dstr s =>
    match pd s with
    | some d => DateVal.ddate d
    | none => DateVal.dmiss
  | DateVal.ddate d => DateVal.ddate d
  | DateVal.dmiss => DateVal.dmiss

/-- `dt.year` (missing on `NaT`). -/
def dvYear : DateVal → Option Int
  | DateVal.ddate d => some d.year
  | _ => none

/-- `dt.month` (missing on `NaT`). -/
def dvMonth : DateVal → Option Nat
  | DateVal.ddate d => some d.month
  | _ => none

/-- `dt.quarter` (missing on `NaT`). -/
def dvQuarter : DateVal → Option Nat
  | DateVal.ddate d => some (pQuarter d.month)
  | _ => none

/-- The column assignments of `transform_dates` on one row. -/
def enrichDates (pd : String → Option PDate) (r : Row) : Row :=
  let rd := toDT pd r.release_date
  { r with
    release_date := rd
    release_year := dvYear rd
    release_month := dvMonth rd
    release_quarter := dvQuarter rd }

/-- The filter `df[df["release_year"] >= self.min_year]`: a missing year
compares false and the row is removed. -/
def yearOk (minY : Int) (r : Row) : Bool :=
  match r.release_year with
  | some y => decide (minY ≤ y)
  | none => false

/-- `SteamDataTransformer.transform_dates`. -/
def transform_dates (pd : String → Option PDate) (minY : Int)
    (df : List Row) : List Row :=
  (df.map (enrichDates pd)).filter (yearOk minY)

/-! ## Stage 3: `create_calculated_metrics` -/

/-- `positive_ratings + negative_ratings` (missing if either is). -/
def totalR (p n : Option ℚ) : Option ℚ :=
  match p, n with
  | some a, some b => some (a + b)
  | _, _ => none

/-- `np.where(total > 0, positive / total * 100, 0)`: always a value,
`0` when the total is missing or non-positive. -/
def ppVal (p n : Option ℚ) : ℚ :=
  match p, n with
  | some a, some b => if 0 < a + b then a / (a + b) * 100 else 0
  | _, _ => 0

/-- `_parse_owners_range`: midpoint of an `"a-b"` range, `0` on any parse
failure; total, it never raises. -/
def parseOwnersRange (o : Option String) : Int :=
  match o with
  | none => 0
  | some s =>
    if s = "Unknown" then 0
    else
      match pySplitOn '-' (pyStripL s.data) with
      | [x] => (parsePyInt (remCommas x)).getD 0
      | [mn, mx] =>
        match parsePyInt (remCommas mn), parsePyInt (remCommas mx) with
        | some a, some b => (a + b) / 2
        | _, _ => 0
      | _ => 0

/-- `pd.cut(price, bins=[0,5,15,30,60,inf], include_lowest=True)`:
upper-inclusive bins, missing for a missing or negative price. -/
def priceCut (o : Option ℚ) : Option String :=
  match o with
  | none => none
  | some p =>
    if p < 0 then none
    else if p ≤ 5 then some "Free/Cheap"
    else if p ≤ 15 then some "Budget"
    else if p ≤ 30 then some "Standard"
    else if p ≤ 60 then some "Premium"
    else some "AAA"

/-- `pd.cut(estimated_owners, bins=[0,50000,500000,2000000,10000000,inf],
include_lowest=True)`. -/
def popCut (n : Int) : Option String :=
  if n < 0 then none
  else if n ≤ 50000 then some "Niche"
  else if n ≤ 500000 then some "Indie"
  else if n ≤ 2000000 then some "Popular"
  else if n ≤ 10000000 then some "Hit"
  else some "Blockbuster"

/-- The `quality_score` formula, with `np.log1p` as the parameter `l`
(`l x` stands for `log(1 + x)`) and `mx` the dataset-wide maximum of
`average_playtime`. -/
def qualityScore (l : ℚ → ℚ) (pp : ℚ) (avg mx : Option ℚ) : Option ℚ :=
  match avg, mx with
  | some a, some m => some (((pp / 100) * (7 / 10) + l a / l m * (3 / 10)) * 100)
  | _, _ => none

/-- pandas `Series.max()` (skips missing values; missing on an all-missing
or empty column). -/
def colMaxQ (L : List (Option ℚ)) : Option ℚ :=
  L.foldr
    (fun o acc =>
      match o, acc with
      | some a, some b => some (max a b)
      | some a, none => some a
      | none, acc => acc)
    none

/-- The column assignments of `create_calculated_metrics` on one row,
given the dataset maximum `mx` of `average_playtime`, the current year
`cy` and the `log1p` parameter `l`. -/
def metricsRow (l : ℚ → ℚ) (cy : Int) (mx : Option ℚ) (r : Row) : Row :=
  { r with
    total_ratings := totalR r.positive_ratings r.negative_ratings
    positive_percentage := some (ppVal r.positive_ratings r.negative_ratings)
    estimated_owners := some (parseOwnersRange r.owners)
    estimated_revenue := r.price.map (fun pr => (parseOwnersRange r.owners : ℚ) * pr)
    price_category := priceCut r.price
    popularity_tier := popCut (parseOwnersRange r.owners)
    quality_score :=
      qualityScore l (ppVal r.positive_ratings r.negative_ratings)
        r.average_playtime mx
    years_since_release := r.release_year.map (fun y => cy - y) }

/-- `SteamDataTransformer.create_calculated_metrics`. -/
def create_calculated_metrics (l : ℚ → ℚ) (cy : Int) (df : List Row) :
    List Row :=
  df.map (metricsRow l cy (colMaxQ (df.map Row.average_playtime)))

/-! ## Stage 4: `process_categorical_data` -/

/-- pandas `col.str.contains(pat, na=False)` on one cell. -/
def hasSub (o : Option String) (pat : String) : Bool :=
  match o with
  | none => false
  | some s => containsSub pat.data s.data

/-- The column assignments of `process_categorical_data` on one row. -/
def catRow (r : Row) : Row :=
  let pg : String :=
    match r.genres with
    | some g => String.mk ((pySplitOn ';' g.data).headD [])
    | none => "Unknown"
  let pc : Nat :=
    match r.platforms with
    | some p => (pySplitOn ';' p.data).length
    | none => 1
  { r with
    primary_genre := some pg
    platform_count := some pc
    has_windows := some (hasSub r.platforms "windows")
    has_mac := some (hasSub r.platforms "mac")
    has_linux := some (hasSub r.platforms "linux")
    is_multiplatform := some (decide (1 < pc))
    is_multiplayer := some (hasSub r.categories "Multi-player")
    is_singleplayer := some (hasSub r.categories "Single-player")
    has_achievements := some (ogt r.achievements 0)
    is_free := some (oeqQ r.price 0) }

/-- `SteamDataTransformer.process_categorical_data`. -/
def process_categorical_data (df : List Row) : List Row :=
  df.map catRow

/-! ## Stage 5: `apply_business_rules` -/

/-- The retention predicate of `apply_business_rules`: name present,
not the placeholder, non-empty, and at least ten ratings. -/
def brPred (r : Row) : Bool :=
  (match r.name with
   | some s => decide (s ≠ "Unknown") && decide (s ≠ "")
   | none => false) && oge r.total_ratings 10

/-- `SteamDataTransformer.apply_business_rules`. -/
def apply_business_rules (df : List Row) : List Row :=
  df.filter brPred

/-- The five-stage transform chain, exactly as `run_transform` composes
it. -/
def fullChain (pd : String → Option PDate) (l : ℚ → ℚ) (cy minY : Int)
    (df : List Row) : List Row :=
  apply_business_rules
    (process_categorical_data
      (create_calculated_metrics l cy
        (transform_dates pd minY (clean_basic_data df))))

/-! ## Dashboard: `apply_filters` (`src/dashboard.py`) -/

/-- A row as the dashboard filter reads it (the columns `apply_filters`
touches; the loaded store always carries them). -/
structure DashRow where
  release_year : Int
  primary_genre : String
  price_category : String
  has_windows : Bool
  has_mac : Bool
  has_linux : Bool
  positive_percentage : ℚ
deriving DecidableEq

/-- The filter-parameter record returned by `create_sidebar_filters`. -/
structure DashFilters where
  year_lo : Int
  year_hi : Int
  genre : String
  priceCat : String
  platforms : List String
  min_rating : ℚ

/-- Whether a row supports a named platform, for the three platform names
the sidebar offers. -/
def supportsPlat (r : DashRow) (p : String) : Bool :=
  if p = "Windows" then r.has_windows
  else if p = "Mac" then r.has_mac
  else if p = "Linux" then r.has_linux
  else false

/-- `apply_filters` from `src/dashboard.py`, with the same sequential
structure: year range, optional genre, optional price category, an
or-accumulated platform mask (skipped when no platform filter was built),
then the minimum-rating filter. -/
def apply_filters (df : List DashRow) (fs : DashFilters) : List DashRow :=
  let d1 := df.filter
    (fun r => decide (fs.year_lo ≤ r.release_year) &&
      decide (r.release_year ≤ fs.year_hi))
  let d2 := if fs.genre = "Todos" then d1
    else d1.filter (fun r => decide (r.primary_genre = fs.genre))
  let d3 := if fs.priceCat = "Todas" then d2
    else d2.filter (fun r => decide (r.price_category = fs.priceCat))
  let pfs : List (DashRow → Bool) :=
    (if "Windows" ∈ fs.platforms then [fun r => r.has_windows] else []) ++
    (if "Mac" ∈ fs.platforms then [fun r => r.has_mac] else []) ++
    (if "Linux" ∈ fs.platforms then [fun r => r.has_linux] else [])
  let d4 :=
    match pfs with
    | [] => d3
    | f :: rest =>
      d3.filter (fun r =>
        rest.foldl (fun (acc : Bool) (g : DashRow → Bool) => acc || g r) (f r))
  d4.filter (fun r => decide (fs.min_rating ≤ r.positive_percentage))

/-! ## Pipeline control flow (`run_pipeline.py`) -/

/-- `run_load`'s success value: `success_count == 3` over the three save
targets (CSV, Excel, SQLite). -/
def runLoadResult (c e d : Bool) : Bool :=
  decide ((if c then 1 else 0) + (if e then 1 else 0) +
    (if d then (1 : Nat) else 0) = 3)

/-- `SteamETLPipeline.run_pipeline`: returns `true` unless an exception
escapes a stage.  `ext` is the outcome of `run_extract` (an exception or
a raw table); `saves` is the outcome of the three save calls inside
`run_load` (an exception, or the three per-target success flags).  A
partial save (`success = False`) only triggers a warning: the function
still returns `true`. -/
def run_pipeline_model (pd : String → Option PDate) (l : ℚ → ℚ)
    (cy minY : Int) (skipE skipT skipL : Bool)
    (ext : Except Unit (List Row))
    (saves : Except Unit (Bool × Bool × Bool)) : Bool :=
  let df1 : Except Unit (Option (List Row)) :=
    if skipE then Except.ok none else ext.map some
  let df2 : Except Unit (Option (List Row)) :=
    df1.bind (fun o =>
      if skipT then Except.ok o
      else
        match o with
        | none => ext.map (fun t => some (fullChain pd l cy minY t))
        | some t => Except.ok (some (fullChain pd l cy minY t)))
  let fin : Except Unit Bool :=
    df2.bind (fun o =>
      if skipL then Except.ok true
      else
        match o with
        | none => Except.error ()
        | some _ =>
          saves.map (fun s =>
            let _success := runLoadResult s.1 s.2.1 s.2.2
            true))
  match fin with
  | Except.ok _ => true
  | Except.error _ => false

/-- `main` of `run_pipeline.py`: exit code 0 when `run_pipeline` returns
`True`, 1 otherwise. -/
def main_exit_code (pd : String → Option PDate) (l : ℚ → ℚ)
    (cy minY : Int) (skipE skipT skipL : Bool)
    (ext : Except Unit (List Row))
    (saves : Except Unit (Bool × Bool × Bool)) : Nat :=
  if run_pipeline_model pd l cy minY skipE skipT skipL ext saves then 0 else 1

/-! ## Concrete fixtures used by witnesses and counterexamples -/

/-- A `pd.to_datetime` stand-in that parses every string to 2015-04. -/
def pdOk : String → Option PDate := fun _ => some { year := 2015, month := 4 }

/-- A `pd.to_datetime` stand-in on which every string is unparseable. -/
def pdNone : String → Option PDate := fun _ => none

/-- A fully well-formed input row. -/
def rowA : Row :=
  { appid := 10, name := some "Portal",
    release_date := DateVal.dstr "2015-04-01",
    developer := some "Valve", publisher := some "Valve",
    platforms := some "windows;mac", categories := some "Single-player",
    genres := some "Action;Puzzle", achievements := some 10,
    positive_ratings := some 90, negative_ratings := some 10,
    average_playtime := some 100, median_playtime := some 50,
    owners := some "1000000-2000000", price := some 5 }

/-- `rowA` with the literal string "nan" in `genres`. -/
def rowNan : Row := { rowA with genres := some "nan" }

/-- `rowA` with an unparseable `release_date`. -/
def rowBadDate : Row := { rowA with release_date := DateVal.dstr "garbage" }

/-- A row with zero positive and five negative ratings, as it reaches
`create_calculated_metrics`. -/
def rowC3 : Row :=
  { rowA with
    positive_ratings := some 0
    negative_ratings := some 5
    release_year := some 2015 }

/-- A row reaching `apply_business_rules` with exactly ten total
ratings. -/
def rowTen : Row := { rowA with total_ratings := some 10 }

/-- The same row with nine total ratings. -/
def rowNine : Row := { rowA with total_ratings := some 9 }

/-- A second row with the same `appid` as `rowA` but different values. -/
def rowDup : Row :=
  { rowA with name := some "Portal 2", positive_ratings := some 50 }

/-- A first-occurrence row that the business rules later drop (three
ratings in total). -/
def rowDupWeak : Row :=
  { rowA with positive_ratings := some 1, negative_ratings := some 2 }

/-- A dashboard row supporting no platform at all. -/
def dashRowNoPlat : DashRow :=
  { release_year := 2015, primary_genre := "Action",
    price_category := "Free/Cheap", has_windows := false, has_mac := false,
    has_linux := false, positive_percentage := 90 }

/-- A dashboard row supporting only Linux. -/
def dashRowLinux : DashRow := { dashRowNoPlat with has_linux := true }

/-- A neutral dashboard filter set (full year range, no genre or price
restriction, zero minimum rating) with an explicit platform list. -/
def dashFiltersWith (ps : List String) : DashFilters :=
  { year_lo := 2010, year_hi := 2020, genre := "Todos", priceCat := "Todas",
    platforms := ps, min_rating := 0 }

/-! ## Claim-side dashboard predicates -/

/-- The claim's conjunction for `apply_filters`: year in range, genre
matching when one is chosen, price category matching when one is chosen,
the row supporting at least one selected platform, and the minimum
rating. -/
def dashConj (fs : DashFilters) (r : DashRow) : Bool :=
  decide (fs.year_lo ≤ r.release_year) && decide (r.release_year ≤ fs.year_hi) &&
  (decide (fs.genre = "Todos") || decide (r.primary_genre = fs.genre)) &&
  (decide (fs.priceCat = "Todas") || decide (r.price_category = fs.priceCat)) &&
  fs.platforms.any (fun p => supportsPlat r p) &&
  decide (fs.min_rating ≤ r.positive_percentage)

/-- The same conjunction without any platform condition. -/
def dashConjNoPlat (fs : DashFilters) (r : DashRow) : Bool :=
  decide (fs.year_lo ≤ r.release_year) && decide (r.release_year ≤ fs.year_hi) &&
  (decide (fs.genre = "Todos") || decide (r.primary_genre = fs.genre)) &&
  (decide (fs.priceCat = "Todas") || decide (r.price_category = fs.priceCat)) &&
  decide (fs.min_rating ≤ r.positive_percentage)

/-! ## Generic list helpers -/

theorem list_map_id_of_mem {α : Type} {f : α → α} :
    ∀ {l : List α}, (∀ x ∈ l, f x = x) → l.map f = l
  | [], _ => rfl
  | x :: xs, h => by
    simp only [List.map_cons]
    rw [h x (List.mem_cons_self x xs),
      list_map_id_of_mem (fun y hy => h y (List.mem_cons_of_mem x hy))]

/-! ## Lemmas on the Python string helpers -/

theorem mem_of_mem_dropWhileW {c : Char} :
    ∀ {l : List Char}, c ∈ l.dropWhile Char.isWhitespace → c ∈ l
  | [], h => h
  | x :: xs, h => by
    rw [List.dropWhile_cons] at h
    split at h
    · exact List.mem_cons_of_mem _ (mem_of_mem_dropWhileW h)
    · exact h

theorem mem_of_mem_pyStripL {c : Char} {l : List Char}
    (h : c ∈ pyStripL l) : c ∈ l := by
  unfold pyStripL at h
  rw [List.mem_reverse] at h
  have h2 := mem_of_mem_dropWhileW h
  rw [List.mem_reverse] at h2
  exact mem_of_mem_dropWhileW h2

theorem pySplitOn_ne_nil (sep : Char) : ∀ l : List Char, pySplitOn sep l ≠ []
  | [] => by simp [pySplitOn]
  | c :: cs => by
    unfold pySplitOn
    rcases h : pySplitOn sep cs with _ | ⟨p, ps⟩
    · simp
    · dsimp only
      split <;> simp

theorem not_mem_of_mem_pySplitOn {sep : Char} :
    ∀ {l part : List Char}, part ∈ pySplitOn sep l → sep ∉ part
  | [], part, h => by
    simp only [pySplitOn, List.mem_singleton] at h
    subst h; simp
  | c :: cs, part, h => by
    unfold pySplitOn at h
    rcases h2 : pySplitOn sep cs with _ | ⟨p, ps⟩
    · exact absurd h2 (pySplitOn_ne_nil sep cs)
    · rw [h2] at h
      dsimp only at h
      by_cases hc : c = sep
      · rw [if_pos hc] at h
        rcases List.mem_cons.mp h with h3 | h3
        · subst h3; simp
        · exact not_mem_of_mem_pySplitOn (show part ∈ pySplitOn sep cs from h2 ▸ h3)
      · rw [if_neg hc] at h
        rcases List.mem_cons.mp h with h3 | h3
        · subst h3
          intro hmem
          rcases List.mem_cons.mp hmem with h4 | h4
          · exact hc h4.symm
          · exact not_mem_of_mem_pySplitOn
              (show p ∈ pySplitOn sep cs from h2 ▸ List.mem_cons_self p ps) h4
        · exact not_mem_of_mem_pySplitOn
            (show part ∈ pySplitOn sep cs from h2 ▸ List.mem_cons_of_mem p h3)

theorem parsePyInt_nonneg {l : List Char} (h : '-' ∉ l) :
    ∀ {v : Int}, parsePyInt l = some v → 0 ≤ v := by
  intro v hv
  have hstrip : '-' ∉ pyStripL l := fun hc => h (mem_of_mem_pyStripL hc)
  unfold parsePyInt at hv
  split at hv
  · rcases Option.map_eq_some'.mp hv with ⟨n, _, hn⟩
    subst hn; exact Int.ofNat_nonneg n
  · rename_i ds heq
    rw [heq] at hstrip
    exact absurd (List.mem_cons_self '-' ds) hstrip
  · rcases Option.map_eq_some'.mp hv with ⟨n, _, hn⟩
    subst hn; exact Int.ofNat_nonneg n

theorem remCommas_no_hyphen {l : List Char} (h : '-' ∉ l) :
    '-' ∉ remCommas l := by
  intro hc
  exact h (List.mem_of_mem_filter hc)

/-- **C5** (confirmed).  The owners-range parser is a total function (the
embedding is a Lean function, so it never raises); for a well-formed
`"a-b"` range — the stripped string splits on `"-"` into exactly two
parts and both parts parse as integers after comma removal — it returns
the floor midpoint `(a + b) / 2`; a missing value, the literal
`"Unknown"`, a no-hyphen part that does not parse, a two-part split with
an unparseable side, or a split into three or more parts (two or more
hyphens) all yield `0`; and the result is non-negative on every input. -/
theorem owners_range_parser_spec :
    (∀ o : Option String, 0 ≤ parseOwnersRange o) ∧
    (∀ (s : String) (mn mx : List Char) (a b : Int),
      pySplitOn '-' (pyStripL s.data) = [mn, mx] →
      parsePyInt (remCommas mn) = some a →
      parsePyInt (remCommas mx) = some b →
      s ≠ "Unknown" →
      parseOwnersRange (some s) = (a + b) / 2) ∧
    parseOwnersRange none = 0 ∧
    parseOwnersRange (some "Unknown") = 0 ∧
    (∀ (s : String) (x : List Char),
      pySplitOn '-' (pyStripL s.data) = [x] →
      parsePyInt (remCommas x) = none →
      s ≠ "Unknown" →
      parseOwnersRange (some s) = 0) ∧
    (∀ (s : String) (mn mx : List Char),
      pySplitOn '-' (pyStripL s.data) = [mn, mx] →
      parsePyInt (remCommas mn) = none ∨ parsePyInt (remCommas mx) = none →
      s ≠ "Unknown" →
      parseOwnersRange (some s) = 0) ∧
    (∀ (s : String) (p q u : List Char) (rest : List (List Char)),
      pySplitOn '-' (pyStripL s.data) = p :: q :: u :: rest →
      s ≠ "Unknown" →
      parseOwnersRange (some s) = 0) := by
  refine ⟨?_, ?_, rfl, rfl, ?_, ?_, ?_⟩
  · intro o
    unfold parseOwnersRange
    split
    · exact le_refl 0
    · rename_i s
      split
      · exact le_refl 0
      · split
        · rename_i x heq
          rcases hp : parsePyInt (remCommas x) with _ | v
          · simp [hp]
          · simp only [hp, Option.getD_some]
            have hx : '-' ∉ x :=
              not_mem_of_mem_pySplitOn (heq ▸ List.mem_singleton_self x)
            exact parsePyInt_nonneg (remCommas_no_hyphen hx) hp
        · rename_i mn mx heq
          have hmn : '-' ∉ mn :=
            not_mem_of_mem_pySplitOn (heq ▸ List.mem_cons_self mn [mx])
          have hmx : '-' ∉ mx := not_mem_of_mem_pySplitOn
            (heq ▸ List.mem_cons_of_mem mn (List.mem_singleton_self mx))
          rcases hp : parsePyInt (remCommas mn) with _ | a <;>
            rcases hq : parsePyInt (remCommas mx) with _ | b <;>
              simp only [hp, hq]
          · exact le_refl 0
          · exact le_refl 0
          · exact le_refl 0
          · have ha := parsePyInt_nonneg (remCommas_no_hyphen hmn) hp
            have hb := parsePyInt_nonneg (remCommas_no_hyphen hmx) hq
            exact Int.ediv_nonneg (by omega) (by omega)
        · exact le_refl 0
  · intro s mn mx a b hsplit hmn hmx hs
    unfold parseOwnersRange
    dsimp only
    rw [if_neg hs, hsplit]
    dsimp only
    rw [hmn, hmx]
  · intro s x hsplit hx hs
    unfold parseOwnersRange
    dsimp only
    rw [if_neg hs, hsplit]
    dsimp only
    rw [hx]
    rfl
  · intro s mn mx hsplit hor hs
    unfold parseOwnersRange
    dsimp only
    rw [if_neg hs, hsplit]
    dsimp only
    rcases hor with h1 | h1
    · rw [h1]
    · rcases hp : parsePyInt (remCommas mn) with _ | a <;> simp only [hp, h1]
  · intro s p q u rest hsplit hs
    unfold parseOwnersRange
    dsimp only
    rw [if_neg hs, hsplit]

/-- Witness for C5: the midpoint clause applied to the concrete input
`"1000000-2000000"` (yielding `1500000`) with every hypothesis discharged
by evaluation, and the non-negativity clause at a malformed input. -/
theorem owners_range_parser_spec_witness :
    parseOwnersRange (some "1000000-2000000") = (1000000 + 2000000) / 2 ∧
    0 ≤ parseOwnersRange (some "12-34-56") := by
  constructor
  · exact owners_range_parser_spec.2.1 "1000000-2000000"
      "1000000".data "2000000".data 1000000 2000000
      (by decide) (by decide) (by decide) (by decide)
  · exact owners_range_parser_spec.1 (some "12-34-56")

/-! ## Business rules (C8) -/

theorem brPred_iff (r : Row) :
    brPred r = true ↔
      (∃ s, r.name = some s ∧ s ≠ "Unknown" ∧ s ≠ "") ∧
      (∃ t, r.total_ratings = some t ∧ (10 : ℚ) ≤ t) := by
  unfold brPred oge
  rcases hn : r.name with _ | s <;>
    rcases ht : r.total_ratings with _ | t <;> simp

/-- **C8** (confirmed).  A row passes `apply_business_rules` exactly when
its name is present, not the placeholder `"Unknown"` and non-empty, and
its `total_ratings` is present and at least 10; concretely, a row with
nine total ratings is dropped and the otherwise identical row with ten is
retained. -/
theorem apply_business_rules_spec :
    (∀ (df : List Row) (r : Row),
      r ∈ apply_business_rules df ↔
        r ∈ df ∧
        (∃ s, r.name = some s ∧ s ≠ "Unknown" ∧ s ≠ "") ∧
        (∃ t, r.total_ratings = some t ∧ (10 : ℚ) ≤ t)) ∧
    apply_business_rules [rowNine] = [] ∧
    apply_business_rules [rowTen] = [rowTen] := by
  refine ⟨?_, by decide, by decide⟩
  intro df r
  rw [apply_business_rules, List.mem_filter, brPred_iff]

/-! ## Date transformation (C2) -/

theorem yearOk_iff (minY : Int) (r : Row) :
    yearOk minY r = true ↔ ∃ y, r.release_year = some y ∧ minY ≤ y := by
  unfold yearOk
  rcases hy : r.release_year with _ | y <;> simp

/-- Counterexample to **C2** as stated: a single-row table whose
`release_date` does not parse (`pdNone` parses nothing, modelling
`pd.to_datetime(..., errors="coerce")` returning `NaT`).  The claim says
the row survives `transform_dates` with missing date fields; in fact the
stage returns the empty table, because the derived `release_year` is
missing and the filter `release_year >= min_year` evaluates false on a
missing value. -/
theorem transform_dates_counterexample :
    transform_dates pdNone 2010 [rowBadDate] = [] := by decide

/-- **C2** (corrected).  Amended claim: `transform_dates` first rewrites
each row's date fields (unparseable dates becoming missing), and then
keeps exactly the rows whose parsed `release_year` is present and at
least the configured minimum — so a row with an unparseable
`release_date` is dropped by the year filter, not retained. -/
theorem transform_dates_spec :
    ∀ (pd : String → Option PDate) (minY : Int) (df : List Row) (r : Row),
      r ∈ transform_dates pd minY df ↔
        (∃ r₀ ∈ df, r = enrichDates pd r₀) ∧
        (∃ y, r.release_year = some y ∧ minY ≤ y) := by
  intro pd minY df r
  simp only [transform_dates, List.mem_filter, List.mem_map, yearOk_iff]
  constructor
  · rintro ⟨⟨r₀, h₀, heq⟩, hy⟩
    exact ⟨⟨r₀, h₀, heq.symm⟩, hy⟩
  · rintro ⟨⟨r₀, h₀, heq⟩, hy⟩
    exact ⟨⟨r₀, h₀, heq.symm⟩, hy⟩

/-! ## Calculated metrics (C9, C3) -/

/-- **C9** (confirmed).  In the table produced by
`create_calculated_metrics`, the `price_category` bins are
upper-inclusive: a price of exactly 5 is "Free/Cheap" while 5.01 is
"Budget", and the boundaries 15, 30 and 60 behave the same way (the
boundary value falls in the lower category, the next cent in the upper
one). -/
theorem price_category_boundaries :
    ∀ (l : ℚ → ℚ) (cy : Int) (df : List Row) (r : Row),
      r ∈ create_calculated_metrics l cy df →
      (r.price = some 5 → r.price_category = some "Free/Cheap") ∧
      (r.price = some (501 / 100) → r.price_category = some "Budget") ∧
      (r.price = some 15 → r.price_category = some "Budget") ∧
      (r.price = some (1501 / 100) → r.price_category = some "Standard") ∧
      (r.price = some 30 → r.price_category = some "Standard") ∧
      (r.price = some (3001 / 100) → r.price_category = some "Premium") ∧
      (r.price = some 60 → r.price_category = some "Premium") ∧
      (r.price = some (6001 / 100) → r.price_category = some "AAA") := by
  intro l cy df r hr
  rcases List.mem_map.mp hr with ⟨r₀, _, heq⟩
  subst heq
  have hpc : (metricsRow l cy (colMaxQ (df.map Row.average_playtime)) r₀).price_category
      = priceCut r₀.price := rfl
  have hpp : (metricsRow l cy (colMaxQ (df.map Row.average_playtime)) r₀).price
      = r₀.price := rfl
  refine ⟨?_, ?_, ?_, ?_, ?_, ?_, ?_, ?_⟩ <;> intro h <;>
    rw [hpp] at h <;> rw [hpc, h] <;> norm_num [priceCut]

/-- Witness for C9: the boundary price 5 in a concrete one-row table is
categorised "Free/Cheap". -/
theorem price_category_boundaries_witness :
    (metricsRow (fun x => x) 2025 (colMaxQ ([rowA].map Row.average_playtime))
      rowA).price_category = some "Free/Cheap" :=
  (price_category_boundaries (fun x => x) 2025 [rowA] _
    (List.mem_map.mpr ⟨rowA, List.mem_singleton_self rowA, rfl⟩)).1 rfl

/-- Counterexample to **C3** as stated: in the output of
`create_calculated_metrics` on a one-row table with 0 positive and 5
negative ratings, `positive_percentage` is 0 while `total_ratings` is 5 —
so `positive_percentage = 0` does not imply `total_ratings = 0`. -/
theorem positive_percentage_counterexample :
    ∃ r ∈ create_calculated_metrics (fun x => x) 2025 [rowC3],
      r.positive_percentage = some 0 ∧ r.total_ratings ≠ some 0 := by
  refine ⟨metricsRow (fun x => x) 2025
      (colMaxQ ([rowC3].map Row.average_playtime)) rowC3,
    List.mem_map.mpr ⟨rowC3, List.mem_singleton_self rowC3, rfl⟩, ?_, ?_⟩
  · with_unfolding_all decide
  · with_unfolding_all decide

/-- **C3** (corrected).  For every row of the output of
`create_calculated_metrics` whose positive and negative rating counts are
present and non-negative, `positive_percentage` is present, lies in
[0, 100], is 0 whenever `total_ratings` is 0, and is 0 exactly when
`positive_ratings` is 0 (not exactly when `total_ratings` is 0: a row
with zero positive but some negative ratings also gets 0). -/
theorem positive_percentage_spec :
    ∀ (l : ℚ → ℚ) (cy : Int) (df : List Row) (r : Row),
      r ∈ create_calculated_metrics l cy df →
      ∀ p n : ℚ, r.positive_ratings = some p → r.negative_ratings = some n →
        0 ≤ p → 0 ≤ n →
        ∃ v, r.positive_percentage = some v ∧ 0 ≤ v ∧ v ≤ 100 ∧
          (r.total_ratings = some 0 → v = 0) ∧ (v = 0 ↔ p = 0) := by
  intro l cy df r hr p n hp hn hp0 hn0
  rcases List.mem_map.mp hr with ⟨r₀, _, heq⟩
  subst heq
  have hps : r₀.positive_ratings = some p := hp
  have hns : r₀.negative_ratings = some n := hn
  have hppe : (metricsRow l cy (colMaxQ (df.map Row.average_playtime))
      r₀).positive_percentage = some (ppVal r₀.positive_ratings r₀.negative_ratings) := rfl
  have htot : (metricsRow l cy (colMaxQ (df.map Row.average_playtime))
      r₀).total_ratings = totalR r₀.positive_ratings r₀.negative_ratings := rfl
  rw [hppe, htot, hps, hns]
  unfold ppVal totalR
  dsimp only
  by_cases hpn : 0 < p + n
  · rw [if_pos hpn]
    refine ⟨p / (p + n) * 100, rfl, ?_, ?_, ?_, ?_⟩
    · positivity
    · have h1 : p / (p + n) ≤ 1 := by
        rw [div_le_one hpn]
        linarith
      calc p / (p + n) * 100 ≤ 1 * 100 := by
            apply mul_le_mul_of_nonneg_right h1
            norm_num
        _ = 100 := one_mul 100
    · intro h0
      have : p + n = 0 := by injection h0
      exact absurd this (ne_of_gt hpn)
    · constructor
      · intro hv
        rcases mul_eq_zero.mp hv with hv1 | hv1
        · rcases div_eq_zero_iff.mp hv1 with hv2 | hv2
          · exact hv2
          · exact absurd hv2 (ne_of_gt hpn)
        · norm_num at hv1
      · intro hv
        rw [hv, zero_div, zero_mul]
  · rw [if_neg hpn]
    have hp' : p = 0 := by linarith
    exact ⟨0, rfl, le_refl 0, by norm_num, fun _ => rfl, by simp [hp']⟩

/-- Witness for C3: the amended statement applied to a concrete one-row
table (90 positive, 10 negative ratings), every hypothesis discharged by
evaluation. -/
theorem positive_percentage_spec_witness :
    ∃ v, (metricsRow (fun x => x) 2025
        (colMaxQ ([rowA].map Row.average_playtime)) rowA).positive_percentage
        = some v ∧ 0 ≤ v ∧ v ≤ 100 ∧
      ((metricsRow (fun x => x) 2025
        (colMaxQ ([rowA].map Row.average_playtime)) rowA).total_ratings
        = some 0 → v = 0) ∧ (v = 0 ↔ (90 : ℚ) = 0) :=
  positive_percentage_spec (fun x => x) 2025 [rowA] _
    (List.mem_map.mpr ⟨rowA, List.mem_singleton_self rowA, rfl⟩)
    90 10 rfl rfl (by norm_num) (by norm_num)

/-! ## Pipeline exit code (C1) -/

/-- Counterexample to **C1** as stated: a run with all three stages
executed, where only two of the three persistence targets succeed
(`runLoadResult true true false = false`), still exits with code 0 —
`run_pipeline` only logs a warning on partial load success and returns
`True`. -/
theorem pipeline_exit_counterexample :
    main_exit_code pdOk (fun x => x) 2025 2010 false false false
      (Except.ok []) (Except.ok (true, true, false)) = 0 ∧
    runLoadResult true true false = false := ⟨rfl, rfl⟩

/-- **C1** (corrected).  Amended claim: a partial persistence failure
does not change the exit code — whenever no stage raises, the pipeline
exits 0 regardless of how many of the three save targets succeeded; the
exit code is 1 exactly when a stage raises (extraction fails, or the
load stage itself raises). -/
theorem pipeline_exit_code_spec :
    ∀ (pd : String → Option PDate) (l : ℚ → ℚ) (cy minY : Int)
      (t : List Row) (s : Bool × Bool × Bool),
      main_exit_code pd l cy minY false false false
        (Except.ok t) (Except.ok s) = 0 ∧
      main_exit_code pd l cy minY false false false
        (Except.ok t) (Except.error ()) = 1 ∧
      (∀ sv : Except Unit (Bool × Bool × Bool),
        main_exit_code pd l cy minY false false false
          (Except.error ()) sv = 1) :=
  fun _ _ _ _ _ _ => ⟨rfl, rfl, fun _ => rfl⟩

/-! ## Dashboard filter (C6, C10) -/

theorem bool_eq_of_iff {a b : Bool} (h : a = true ↔ b = true) : a = b := by
  cases a <;> cases b <;> simp_all

theorem any_supports_iff (ps : List String) (r : DashRow)
    (hsub : ∀ p ∈ ps, p = "Windows" ∨ p = "Mac" ∨ p = "Linux") :
    (ps.any (fun p => supportsPlat r p) = true ↔
      ("Windows" ∈ ps ∧ r.has_windows = true) ∨
      ("Mac" ∈ ps ∧ r.has_mac = true) ∨
      ("Linux" ∈ ps ∧ r.has_linux = true)) := by
  rw [List.any_eq_true]
  constructor
  · rintro ⟨p, hp, hs⟩
    rcases hsub p hp with h | h | h <;> subst h <;>
      simp only [supportsPlat] at hs
    · exact Or.inl ⟨hp, by simpa using hs⟩
    · exact Or.inr (Or.inl ⟨hp, by simpa using hs⟩)
    · exact Or.inr (Or.inr ⟨hp, by simpa using hs⟩)
  · rintro (⟨hp, hs⟩ | ⟨hp, hs⟩ | ⟨hp, hs⟩)
    · exact ⟨"Windows", hp, by simp [supportsPlat, hs]⟩
    · exact ⟨"Mac", hp, by simp [supportsPlat, hs]⟩
    · exact ⟨"Linux", hp, by simp [supportsPlat, hs]⟩

theorem plat_mask_eq (fs : DashFilters) (d : List DashRow)
    (hne : fs.platforms ≠ [])
    (hsub : ∀ p ∈ fs.platforms, p = "Windows" ∨ p = "Mac" ∨ p = "Linux") :
    (match (if "Windows" ∈ fs.platforms then [fun r : DashRow => r.has_windows] else []) ++
        (if "Mac" ∈ fs.platforms then [fun r : DashRow => r.has_mac] else []) ++
        (if "Linux" ∈ fs.platforms then [fun r : DashRow => r.has_linux] else []) with
      | [] => d
      | f :: rest =>
        d.filter (fun r =>
          rest.foldl (fun (acc : Bool) (g : DashRow → Bool) => acc || g r) (f r))) =
    d.filter (fun r => fs.platforms.any (fun p => supportsPlat r p)) := by
  by_cases hw : "Windows" ∈ fs.platforms <;>
    by_cases hm : "Mac" ∈ fs.platforms <;>
      by_cases hl : "Linux" ∈ fs.platforms
  all_goals first
  | · exfalso
      rcases h : fs.platforms with _ | ⟨p, ps⟩
      · exact hne h
      · rcases hsub p (h ▸ List.mem_cons_self p ps) with h1 | h1 | h1 <;> subst h1
        · exact hw (h ▸ List.mem_cons_self _ ps)
        · exact hm (h ▸ List.mem_cons_self _ ps)
        · exact hl (h ▸ List.mem_cons_self _ ps)
  | · simp only [hw, hm, hl, if_true, if_false,
        List.cons_append, List.nil_append, List.append_nil]
      refine List.filter_congr ?_
      intro r hr
      apply bool_eq_of_iff
      simp only [List.foldl_cons, List.foldl_nil, Bool.or_eq_true,
        any_supports_iff fs.platforms r hsub, hw, hm, hl]
      tauto

/-- **C6** (confirmed).  When the platform filter is active (at least one
platform chosen, platforms drawn from the sidebar's three options),
`apply_filters` returns exactly the rows satisfying the conjunction of
all active filters, the platform condition being a disjunction over the
selected platforms.  (The empty-selection case is the subject of C10.) -/
theorem apply_filters_conjunction :
    ∀ (df : List DashRow) (fs : DashFilters),
      fs.platforms ≠ [] →
      (∀ p ∈ fs.platforms, p = "Windows" ∨ p = "Mac" ∨ p = "Linux") →
      apply_filters df fs = df.filter (dashConj fs) := by
  intro df fs hne hsub
  unfold apply_filters
  simp only []
  rw [plat_mask_eq fs _ hne hsub]
  by_cases hg : fs.genre = "Todos" <;> by_cases hp : fs.priceCat = "Todas" <;>
    simp only [hg, hp, if_true, if_false, List.filter_filter] <;>
    refine List.filter_congr ?_ <;> intro r hr <;> apply bool_eq_of_iff <;>
    simp [dashConj, hg, hp] <;> tauto

/-- Witness for C6: the conjunction characterisation applied to a
concrete two-row table and a one-platform filter. -/
theorem apply_filters_conjunction_witness :
    apply_filters [dashRowLinux, dashRowNoPlat] (dashFiltersWith ["Linux"]) =
      List.filter (dashConj (dashFiltersWith ["Linux"]))
        [dashRowLinux, dashRowNoPlat] :=
  apply_filters_conjunction [dashRowLinux, dashRowNoPlat]
    (dashFiltersWith ["Linux"]) (by decide) (by decide)

/-- **C10** (confirmed).  With an empty platform selection,
`apply_filters` applies no platform restriction at all: the result is the
filter by year range, genre, price category and minimum rating alone; in
particular a concrete row supporting none of the three platforms is still
returned. -/
theorem apply_filters_empty_platforms :
    (∀ (df : List DashRow) (fs : DashFilters), fs.platforms = [] →
      apply_filters df fs = df.filter (dashConjNoPlat fs)) ∧
    apply_filters [dashRowNoPlat] (dashFiltersWith []) = [dashRowNoPlat] := by
  constructor
  · intro df fs h
    unfold apply_filters
    simp only [h, List.not_mem_nil, if_false, List.nil_append]
    by_cases hg : fs.genre = "Todos" <;> by_cases hp : fs.priceCat = "Todas" <;>
      simp only [hg, hp, if_true, if_false, List.filter_filter] <;>
      refine List.filter_congr ?_ <;> intro r hr <;> apply bool_eq_of_iff <;>
      simp [dashConjNoPlat, hg, hp] <;> tauto
  · decide

/-- Witness for C10: the empty-selection characterisation applied to a
concrete one-row table. -/
theorem apply_filters_empty_platforms_witness :
    apply_filters [dashRowNoPlat] (dashFiltersWith []) =
      List.filter (dashConjNoPlat (dashFiltersWith [])) [dashRowNoPlat] :=
  apply_filters_empty_platforms.1 [dashRowNoPlat] (dashFiltersWith []) rfl

/-! ## De-duplication (C7) -/

theorem dedupAppid_filter_of_mem_seen :
    ∀ (df : List Row) (seen : List Int) (a : Int), a ∈ seen →
      (dedupAppid seen df).filter (fun x => x.appid == a) = []
  | [], _, _, _ => rfl
  | x :: xs, seen, a, ha => by
    unfold dedupAppid
    by_cases hx : x.appid ∈ seen
    · rw [if_pos hx]
      exact dedupAppid_filter_of_mem_seen xs seen a ha
    · rw [if_neg hx, List.filter_cons]
      have hne : (x.appid == a) = false := by
        rw [beq_eq_false_iff_ne]
        intro h; exact hx (h ▸ ha)
      rw [hne]
      simp only [Bool.false_eq_true, if_false]
      exact dedupAppid_filter_of_mem_seen xs (x.appid :: seen) a
        (List.mem_cons_of_mem _ ha)

theorem dedupAppid_filter_first :
    ∀ (df : List Row) (seen : List Int) (a : Int) (r : Row),
      a ∉ seen →
      df.find? (fun x => x.appid == a) = some r →
      (dedupAppid seen df).filter (fun x => x.appid == a) = [r]
  | [], _, _, _, _, hf => by simp [List.find?] at hf
  | x :: xs, seen, a, r, ha, hf => by
    unfold dedupAppid
    cases hxa : x.appid == a with
    | true =>
      rw [List.find?_cons_of_pos xs hxa] at hf
      have hr : x = r := by injection hf
      have hxe : x.appid = a := by
        have := hxa; rwa [beq_iff_eq] at this
      rw [if_neg (hxe ▸ ha), List.filter_cons, hxa]
      simp only [if_true]
      rw [dedupAppid_filter_of_mem_seen xs (x.appid :: seen) a
        (hxe ▸ List.mem_cons_self x.appid seen), hr]
    | false =>
      rw [List.find?_cons_of_neg xs (by rw [hxa]; exact Bool.false_ne_true)] at hf
      have hne : a ≠ x.appid := by
        intro h
        rw [h] at hxa
        simp at hxa
      by_cases hx : x.appid ∈ seen
      · rw [if_pos hx]
        exact dedupAppid_filter_first xs seen a r ha hf
      · rw [if_neg hx, List.filter_cons, hxa]
        simp only [Bool.false_eq_true, if_false]
        exact dedupAppid_filter_first xs (x.appid :: seen) a r
          (by
            intro hmem
            rcases List.mem_cons.mp hmem with h | h
            · exact hne h
            · exact ha h) hf

theorem dedupAppid_nodup :
    ∀ (df : List Row) (seen : List Int),
      ((dedupAppid seen df).map Row.appid).Nodup ∧
      (∀ x ∈ dedupAppid seen df, x.appid ∉ seen)
  | [], _ => ⟨List.nodup_nil, by simp [dedupAppid]⟩
  | x :: xs, seen => by
    unfold dedupAppid
    by_cases hx : x.appid ∈ seen
    · rw [if_pos hx]
      exact dedupAppid_nodup xs seen
    · rw [if_neg hx]
      have ih := dedupAppid_nodup xs (x.appid :: seen)
      constructor
      · rw [List.map_cons, List.nodup_cons]
        refine ⟨?_, ih.1⟩
        intro hmem
        rcases List.mem_map.mp hmem with ⟨y, hy, hye⟩
        exact (ih.2 y hy) (hye ▸ List.mem_cons_self x.appid seen)
      · intro y hy
        rcases List.mem_cons.mp hy with h | h
        · exact h ▸ hx
        · exact fun hc => (ih.2 y h) (List.mem_cons_of_mem _ hc)

theorem map_appid_map_of_preserve (f : Row → Row)
    (hf : ∀ r, (f r).appid = r.appid) :
    ∀ L : List Row, (L.map f).map Row.appid = L.map Row.appid
  | [] => rfl
  | x :: xs => by
    simp only [List.map_cons, hf, map_appid_map_of_preserve f hf xs]

theorem fullChain_appids_nodup (pd : String → Option PDate) (l : ℚ → ℚ)
    (cy minY : Int) (df : List Row) :
    ((fullChain pd l cy minY df).map Row.appid).Nodup := by
  unfold fullChain apply_business_rules process_categorical_data
    create_calculated_metrics transform_dates clean_basic_data
  refine ((dedupAppid_nodup df []).1).sublist ?_
  refine List.Sublist.trans ((List.filter_sublist _).map Row.appid) ?_
  rw [map_appid_map_of_preserve catRow (fun r => rfl),
    map_appid_map_of_preserve (metricsRow l cy _) (fun r => rfl)]
  refine List.Sublist.trans ((List.filter_sublist _).map Row.appid) ?_
  rw [map_appid_map_of_preserve (enrichDates pd) (fun r => rfl),
    map_appid_map_of_preserve cleanRow (fun r => rfl)]

/-- Counterexample to **C7** as stated: a two-row table whose rows share
`appid` 10; the first occurrence is kept by the de-duplication but then
dropped by the business rules (only three ratings), so the transform
output contains zero rows with that `appid`, not exactly one. -/
theorem dedup_first_occurrence_counterexample :
    rowDupWeak.appid = rowDup.appid ∧
    fullChain pdOk (fun x => x) 2025 2010 [rowDupWeak, rowDup] = [] := by
  constructor
  · rfl
  · with_unfolding_all decide

/-- **C7** (corrected).  Amended claim: the de-duplication is the first
operation of the first stage, before any derived field is computed, and
its output contains exactly one row per duplicated `appid` — the first
occurrence, with its raw values; the full transform output contains at
most one row per `appid` (later filters may still drop that row, so
"exactly one" does not hold of the final output). -/
theorem dedup_first_occurrence_spec :
    (∀ (df : List Row) (a : Int) (r : Row),
      df.find? (fun x => x.appid == a) = some r →
      (dedupAppid [] df).filter (fun x => x.appid == a) = [r]) ∧
    (∀ (pd : String → Option PDate) (l : ℚ → ℚ) (cy minY : Int)
      (df : List Row),
      ((fullChain pd l cy minY df).map Row.appid).Nodup) := by
  constructor
  · intro df a r hf
    exact dedupAppid_filter_first df [] a r (List.not_mem_nil a) hf
  · exact fullChain_appids_nodup

/-- Witness for C7: on a concrete two-row table with duplicate `appid`
10, the de-duplication output restricted to that `appid` is exactly the
first occurrence. -/
theorem dedup_first_occurrence_spec_witness :
    (dedupAppid [] [rowA, rowDup]).filter (fun x => x.appid == 10) = [rowA] :=
  dedup_first_occurrence_spec.1 [rowA, rowDup] 10 rowA (by decide)

/-! ## Idempotence of the transform chain (C4) -/

theorem dropWhile_self_idem {α : Type} (p : α → Bool) :
    ∀ l : List α, (l.dropWhile p).dropWhile p = l.dropWhile p
  | [] => rfl
  | x :: xs => by
    rw [List.dropWhile_cons]
    split
    · exact dropWhile_self_idem p xs
    · rw [List.dropWhile_cons]
      rename_i h
      rw [if_neg h]

theorem dropWhile_append_last {α : Type} (p : α → Bool) (a : α)
    (ha : ¬ p a = true) :
    ∀ xs : List α, (xs ++ [a]).dropWhile p = xs.dropWhile p ++ [a]
  | [] => by simp [List.dropWhile_cons, ha]
  | x :: xs => by
    simp only [List.cons_append, List.dropWhile_cons]
    by_cases hx : p x = true
    · rw [if_pos hx, if_pos hx]
      exact dropWhile_append_last p a ha xs
    · rw [if_neg hx, if_neg hx, List.cons_append]

theorem head_not_of_dropWhile_eq_self {α : Type} {p : α → Bool} {x : α}
    {xs : List α} (h : (x :: xs).dropWhile p = x :: xs) : ¬ p x = true := by
  intro hx
  rw [List.dropWhile_cons, if_pos hx] at h
  have hlen := congrArg List.length h
  have hle : (List.dropWhile p xs).length ≤ xs.length :=
    (List.dropWhile_sublist p).length_le
  simp only [List.length_cons] at hlen
  omega

theorem dropWhile_dropEnd_fix {α : Type} {p : α → Bool} :
    ∀ {xs : List α}, xs.dropWhile p = xs →
      ((xs.reverse.dropWhile p).reverse).dropWhile p =
        (xs.reverse.dropWhile p).reverse := by
  intro xs h
  match xs, h with
  | [], _ => rfl
  | x :: t, h =>
    have hx : ¬ p x = true := head_not_of_dropWhile_eq_self h
    have h1 : (x :: t).reverse.dropWhile p = t.reverse.dropWhile p ++ [x] := by
      rw [List.reverse_cons]
      exact dropWhile_append_last p x hx t.reverse
    rw [h1, List.reverse_append, List.reverse_singleton]
    rw [List.singleton_append, List.dropWhile_cons, if_neg hx]

theorem pyStripL_idem (l : List Char) : pyStripL (pyStripL l) = pyStripL l := by
  unfold pyStripL
  have hA : (l.dropWhile Char.isWhitespace).dropWhile Char.isWhitespace
      = l.dropWhile Char.isWhitespace := dropWhile_self_idem _ l
  rw [dropWhile_dropEnd_fix hA]
  rw [List.reverse_reverse]
  rw [dropWhile_self_idem]

theorem stripCell_idem (o : Option String) :
    stripCell (stripCell o) = stripCell o := by
  rcases o with _ | s
  · rfl
  · unfold stripCell
    dsimp only
    by_cases h : String.mk (pyStripL s.data) = "nan"
    · rw [if_pos h]
    · rw [if_neg h]
      dsimp only
      rw [pyStripL_idem]
      rw [if_neg h]

theorem fillQ_eq_self {d : ℚ} {o : Option ℚ} (h : o.isSome = true) :
    fillQ d o = o := by
  rcases o with _ | v
  · simp at h
  · rfl

theorem fillS_eq_self {d : String} {o : Option String} (h : o.isSome = true) :
    fillS d o = o := by
  rcases o with _ | v
  · simp at h
  · rfl

theorem fillRow_fix (y : Row)
    (h1 : y.achievements.isSome = true) (h2 : y.positive_ratings.isSome = true)
    (h3 : y.negative_ratings.isSome = true) (h4 : y.average_playtime.isSome = true)
    (h5 : y.median_playtime.isSome = true) (h6 : y.price.isSome = true)
    (h7 : y.developer.isSome = true) (h8 : y.publisher.isSome = true)
    (h9 : y.platforms.isSome = true) (h10 : y.categories.isSome = true)
    (h11 : y.genres.isSome = true) :
    fillRow y = y := by
  unfold fillRow
  rw [fillQ_eq_self h1, fillQ_eq_self h2, fillQ_eq_self h3, fillQ_eq_self h4,
    fillQ_eq_self h5, fillQ_eq_self h6, fillS_eq_self h7, fillS_eq_self h8,
    fillS_eq_self h9, fillS_eq_self h10, fillS_eq_self h11]

theorem stripRow_fix (y : Row)
    (h1 : stripCell y.name = y.name) (h2 : stripCell y.developer = y.developer)
    (h3 : stripCell y.publisher = y.publisher)
    (h4 : stripCell y.categories = y.categories)
    (h5 : stripCell y.genres = y.genres) :
    stripRow y = y := by
  unfold stripRow
  rw [h1, h2, h3, h4, h5]

theorem cleanRow_fix (y : Row)
    (h1 : y.achievements.isSome = true) (h2 : y.positive_ratings.isSome = true)
    (h3 : y.negative_ratings.isSome = true) (h4 : y.average_playtime.isSome = true)
    (h5 : y.median_playtime.isSome = true) (h6 : y.price.isSome = true)
    (h7 : y.developer.isSome = true) (h8 : y.publisher.isSome = true)
    (h9 : y.platforms.isSome = true) (h10 : y.categories.isSome = true)
    (h11 : y.genres.isSome = true)
    (s1 : stripCell y.name = y.name) (s2 : stripCell y.developer = y.developer)
    (s3 : stripCell y.publisher = y.publisher)
    (s4 : stripCell y.categories = y.categories)
    (s5 : stripCell y.genres = y.genres) :
    cleanRow y = y := by
  unfold cleanRow
  rw [fillRow_fix y h1 h2 h3 h4 h5 h6 h7 h8 h9 h10 h11]
  exact stripRow_fix y s1 s2 s3 s4 s5

theorem dedup_eq_self_of_nodup :
    ∀ (T : List Row) (seen : List Int),
      (∀ x ∈ T, x.appid ∉ seen) → ((T.map Row.appid).Nodup) →
      dedupAppid seen T = T
  | [], _, _, _ => rfl
  | x :: xs, seen, hs, hn => by
    unfold dedupAppid
    rw [if_neg (hs x (List.mem_cons_self x xs))]
    rw [List.map_cons, List.nodup_cons] at hn
    congr 1
    apply dedup_eq_self_of_nodup xs (x.appid :: seen)
    · intro y hy hmem
      rcases List.mem_cons.mp hmem with h | h
      · exact hn.1 (h ▸ List.mem_map_of_mem Row.appid hy)
      · exact hs y (List.mem_cons_of_mem x hy) h
    · exact hn.2

theorem toDT_idem (pd : String → Option PDate) (v : DateVal) :
    toDT pd (toDT pd v) = toDT pd v := by
  cases v with
  | dstr s => cases h : pd s <;> simp [toDT, h]
  | ddate d => rfl
  | dmiss => rfl

theorem enrich_fix_of (pd : String → Option PDate) (y : Row)
    (hrd : toDT pd y.release_date = y.release_date)
    (hy : dvYear y.release_date = y.release_year)
    (hm : dvMonth y.release_date = y.release_month)
    (hq : dvQuarter y.release_date = y.release_quarter) :
    enrichDates pd y = y := by
  show { y with
    release_date := toDT pd y.release_date
    release_year := dvYear (toDT pd y.release_date)
    release_month := dvMonth (toDT pd y.release_date)
    release_quarter := dvQuarter (toDT pd y.release_date) } = y
  rw [hrd, hy, hm, hq]

theorem yearOk_congr (minY : Int) {r1 r2 : Row}
    (h : r1.release_year = r2.release_year) :
    yearOk minY r1 = yearOk minY r2 := by
  unfold yearOk
  rw [h]

theorem met_idem (l : ℚ → ℚ) (cy : Int) (M : Option ℚ) (x : Row) :
    metricsRow l cy M (catRow (metricsRow l cy M x)) =
      catRow (metricsRow l cy M x) := by
  cases x; rfl

theorem cat_idem (l : ℚ → ℚ) (cy : Int) (M : Option ℚ) (x : Row) :
    catRow (catRow (metricsRow l cy M x)) = catRow (metricsRow l cy M x) := by
  cases x; rfl

theorem fullChain_mem_decomp (pd : String → Option PDate) (l : ℚ → ℚ)
    (cy minY : Int) (df : List Row) {r : Row}
    (hr : r ∈ fullChain pd l cy minY df) :
    ∃ r0 ∈ dedupAppid [] df,
      r = catRow (metricsRow l cy
        (colMaxQ ((transform_dates pd minY (clean_basic_data df)).map
          Row.average_playtime))
        (enrichDates pd (cleanRow r0))) ∧
      yearOk minY (enrichDates pd (cleanRow r0)) = true ∧
      brPred r = true := by
  unfold fullChain apply_business_rules process_categorical_data
    create_calculated_metrics at hr
  rw [List.mem_filter] at hr
  obtain ⟨hr1, hbr⟩ := hr
  rw [List.mem_map] at hr1
  obtain ⟨r3, hr3, hcat⟩ := hr1
  rw [List.mem_map] at hr3
  obtain ⟨r2, hr2, hmet⟩ := hr3
  unfold transform_dates clean_basic_data at hr2
  rw [List.mem_filter] at hr2
  obtain ⟨hr2m, hyr⟩ := hr2
  rw [List.mem_map] at hr2m
  obtain ⟨r1, hr1m, henr⟩ := hr2m
  rw [List.mem_map] at hr1m
  obtain ⟨r0, hr0, hclean⟩ := hr1m
  refine ⟨r0, hr0, ?_, ?_, hbr⟩
  · rw [hclean, henr, hmet, hcat]
  · rw [hclean, henr]
    exact hyr

set_option maxRecDepth 10000 in
/-- Counterexample to **C4** as stated: a one-row table whose `genres`
cell is the literal string "nan".  The first run turns it into a missing
value (strip, then `replace("nan", NaN)`); the second run's `fillna`
refills it with "Unknown", so running the chain on its own output changes
the table. -/
theorem transform_chain_idem_counterexample :
    fullChain pdOk (fun x => x) 2025 2010
        (fullChain pdOk (fun x => x) 2025 2010 [rowNan]) ≠
      fullChain pdOk (fun x => x) 2025 2010 [rowNan] := by
  with_unfolding_all decide

/-- **C4** (corrected).  Amended claim: the five-stage chain applied to
its own output returns the output unchanged, provided (a) no string cell
of the output was lost to the literal-"nan" replacement (the four filled
and stripped string columns are still present), and (b) the dataset
maximum of `average_playtime` over the final output equals the maximum
over the table that entered metric derivation (the business-rule pass did
not drop the maximum-playtime row) — `quality_score` depends on that
dataset-wide maximum, so the chain is not idempotent without (b), and
the "nan" refill breaks byte-identity without (a). -/
theorem transform_chain_idem (pd : String → Option PDate) (l : ℚ → ℚ)
    (cy minY : Int) (df : List Row)
    (H1 : ∀ r ∈ fullChain pd l cy minY df,
      r.developer.isSome = true ∧ r.publisher.isSome = true ∧
      r.categories.isSome = true ∧ r.genres.isSome = true)
    (H2 : colMaxQ ((fullChain pd l cy minY df).map Row.average_playtime) =
      colMaxQ ((transform_dates pd minY (clean_basic_data df)).map
        Row.average_playtime)) :
    fullChain pd l cy minY (fullChain pd l cy minY df) =
      fullChain pd l cy minY df := by
  have hfixclean : ∀ r ∈ fullChain pd l cy minY df, cleanRow r = r := by
    intro r hr
    obtain ⟨hdev, hpub, hcat, hgen⟩ := H1 r hr
    obtain ⟨r0, hr0, heq, hyok, hbr⟩ := fullChain_mem_decomp pd l cy minY df hr
    subst heq
    apply cleanRow_fix
    · rfl
    · rfl
    · rfl
    · rfl
    · rfl
    · rfl
    · exact hdev
    · exact hpub
    · rfl
    · exact hcat
    · exact hgen
    · exact stripCell_idem r0.name
    · exact stripCell_idem (fillS "Unknown" r0.developer)
    · exact stripCell_idem (fillS "Unknown" r0.publisher)
    · exact stripCell_idem (fillS "Unknown" r0.categories)
    · exact stripCell_idem (fillS "Unknown" r0.genres)
  have hstage1 : clean_basic_data (fullChain pd l cy minY df) =
      fullChain pd l cy minY df := by
    unfold clean_basic_data
    rw [dedup_eq_self_of_nodup _ [] (fun x _ => List.not_mem_nil _)
      (fullChain_appids_nodup pd l cy minY df)]
    exact list_map_id_of_mem hfixclean
  have hfixenr : ∀ r ∈ fullChain pd l cy minY df, enrichDates pd r = r := by
    intro r hr
    obtain ⟨r0, hr0, heq, hyok, hbr⟩ := fullChain_mem_decomp pd l cy minY df hr
    subst heq
    apply enrich_fix_of
    · exact toDT_idem pd (cleanRow r0).release_date
    · rfl
    · rfl
    · rfl
  have hyear : ∀ r ∈ fullChain pd l cy minY df, yearOk minY r = true := by
    intro r hr
    obtain ⟨r0, hr0, heq, hyok, hbr⟩ := fullChain_mem_decomp pd l cy minY df hr
    subst heq
    exact hyok
  have hstage2 : transform_dates pd minY (fullChain pd l cy minY df) =
      fullChain pd l cy minY df := by
    unfold transform_dates
    rw [list_map_id_of_mem hfixenr]
    exact List.filter_eq_self.mpr hyear
  have hbrall : ∀ r ∈ fullChain pd l cy minY df, brPred r = true := by
    intro r hr
    obtain ⟨_, _, _, _, hbr⟩ := fullChain_mem_decomp pd l cy minY df hr
    exact hbr
  have hmetfix : ∀ r ∈ fullChain pd l cy minY df,
      metricsRow l cy
        (colMaxQ ((transform_dates pd minY (clean_basic_data df)).map
          Row.average_playtime)) r = r := by
    intro r hr
    obtain ⟨r0, hr0, heq, _, _⟩ := fullChain_mem_decomp pd l cy minY df hr
    subst heq
    exact met_idem l cy _ _
  have hcatfix : ∀ r ∈ fullChain pd l cy minY df, catRow r = r := by
    intro r hr
    obtain ⟨r0, hr0, heq, _, _⟩ := fullChain_mem_decomp pd l cy minY df hr
    subst heq
    exact cat_idem l cy _ _
  show apply_business_rules (process_categorical_data
    (create_calculated_metrics l cy (transform_dates pd minY
      (clean_basic_data (fullChain pd l cy minY df))))) =
    fullChain pd l cy minY df
  rw [hstage1, hstage2]
  unfold create_calculated_metrics process_categorical_data
    apply_business_rules
  rw [H2, list_map_id_of_mem hmetfix, list_map_id_of_mem hcatfix]
  exact List.filter_eq_self.mpr hbrall

set_option maxRecDepth 10000 in
/-- Witness for C4: the amended idempotence applied to a concrete
well-formed one-row table, both hypotheses discharged by evaluation. -/
theorem transform_chain_idem_witness :
    fullChain pdOk (fun x => x) 2025 2010
        (fullChain pdOk (fun x => x) 2025 2010 [rowA]) =
      fullChain pdOk (fun x => x) 2025 2010 [rowA] :=
  transform_chain_idem pdOk (fun x => x) 2025 2010 [rowA]
    (by with_unfolding_all decide) (by with_unfolding_all decide)
